import Mathlib

/-!
Verification of the tilo command-argument and temporal-query parsing core.

This file is a shallow embedding, in Lean 4, of the argument-parsing engine of
the tilo time tracker: the `argparse` package (task handlers, the param
registry and its token scan, the command parser) and the `msg` package's
temporal query sub-language (the detail parsers, the modifier chunking loop,
and the date arithmetic `daysAgo` / `weeksAgo` / `monthsAgo` / `yearsAgo`).

Modelling conventions:

* Go strings are `List Char` (`Str` below); all string literals are written as
  raw string literals converted with `.toList`.
* A Go `time.Time` is modelled by its calendar date only, as the integer
  number of days since 1970-01-01 (a "rata die").  Every `time` operation the
  source performs on these values (`AddDate`, `Weekday`, `Format`, `After`)
  either is pure day arithmetic or factors through the civil-date conversion;
  the conversions `daysFromCivil` / `civilFromDays` below implement the
  standard proleptic-Gregorian algorithms, matching Go's internal
  date-to-absolute-day computation.  Time of day is irrelevant to the parsing
  core: in `weeksAgo` both compared instants carry the same time of day, so
  `end.After(now)` holds iff the dates compare that way.
* Fallible Go functions returning `(T, error)` become `Except GoErr T`; the
  distinct error *messages* produced by the source are mapped one-to-one to
  constructors of `GoErr`.  Functions that can also panic return `Outcome T`,
  whose `panicked` constructor carries the Go panic message.
* The call to `time.Now()` inside `getQueryParams` is modelled by an explicit
  extra parameter `wallNow`, distinct from the injected `now` parameter.
-/

/-- Go strings, modelled as lists of characters. -/
abbrev Str := List Char

/-- Does the string start with the given character (strings.HasPrefix with a
one-character separator)? -/
def startsWithChar (c : Char) : Str → Bool
  | [] => false
  | a :: _ => a = c

/-- Does the string contain the given character (strings.Contains with a
one-character needle)? -/
def containsChar (c : Char) (s : Str) : Bool :=
  s.any (fun a => a = c)

/-- Split on a one-character separator, Go `strings.Split` semantics: the
result always has at least one (possibly empty) piece. -/
def splitOnChar (c : Char) : Str → List Str
  | [] => [[]]
  | a :: rest =>
    if a = c then [] :: splitOnChar c rest
    else
      match splitOnChar c rest with
      | [] => [[a]]
      | p :: ps => (a :: p) :: ps

/-- The piece before the first separator: Go `strings.Split(s, sep)[0]`. -/
def firstPiece (c : Char) (s : Str) : Str :=
  match splitOnChar c s with
  | [] => []
  | p :: _ => p

/-- The piece between the first and second separator: Go
`strings.Split(s, sep)[1]`.  Every caller in the source guards this with
`strings.Contains`, so the out-of-range default is never taken. -/
def secondPiece (c : Char) (s : Str) : Str :=
  match splitOnChar c s with
  | _ :: p :: _ => p
  | _ => []

/-- Go `strings.TrimLeft(s, ":")`: drop every leading colon. -/
def dropLeadingColons (s : Str) : Str :=
  s.dropWhile (fun a => a = ':')

/-- Go `strings.ContainsAny(str, " \t\n")`. -/
def hasWhitespace (s : Str) : Bool :=
  s.any (fun a => a = ' ' || a = '\t' || a = '\n')

/-- Decimal digits of a natural number. -/
def natToChars (n : Nat) : Str :=
  Nat.toDigits 10 n

/-- Go `fmt.Sprint` of an integer. -/
def intToChars (n : Int) : Str :=
  if n < 0 then '-' :: natToChars (-n).toNat else natToChars n.toNat

/-- Zero-pad on the left to the given width. -/
def padZeros (w : Nat) (s : Str) : Str :=
  List.replicate (w - s.length) '0' ++ s

/-- Zero-padded decimal rendering of an integer, as Go's time formatter
produces for the numeric layout fields. -/
def padInt (w : Nat) (n : Int) : Str :=
  if n < 0 then '-' :: padZeros w (natToChars (-n).toNat)
  else padZeros w (natToChars n.toNat)

/-- A civil (proleptic Gregorian) calendar date. -/
structure Civil where
  y : Int
  m : Int
  d : Int
deriving DecidableEq, Repr

/-- Days since 1970-01-01 of a civil date (the standard days-from-civil
algorithm; `/` and `%` on `Int` are floor-like for these positive divisors,
matching the algorithm's intent). -/
def daysFromCivil (y m d : Int) : Int :=
  let y' := if m ≤ 2 then y - 1 else y
  let era := y' / 400
  let yoe := y' - era * 400
  let mp := (m + 9) % 12
  let doy := (153 * mp + 2) / 5 + d - 1
  let doe := yoe * 365 + yoe / 4 - yoe / 100 + doy
  era * 146097 + doe - 719468

/-- Civil date of a days-since-1970-01-01 count (the standard civil-from-days
algorithm). -/
def civilFromDays (z : Int) : Civil :=
  let z' := z + 719468
  let era := z' / 146097
  let doe := z' - era * 146097
  let yoe := (doe - doe / 1460 + doe / 36524 - doe / 146096) / 365
  let y := yoe + era * 400
  let doy := doe - (365 * yoe + yoe / 4 - yoe / 100)
  let mp := (5 * doy + 2) / 153
  let d := doy - (153 * mp + 2) / 5 + 1
  let m := if mp < 10 then mp + 3 else mp - 9
  ⟨if m ≤ 2 then y + 1 else y, m, d⟩

/-- Go `int(t.Weekday())`: Sunday = 0 … Saturday = 6.  1970-01-01 (day 0) was
a Thursday (= 4). -/
def goWeekday (z : Int) : Int :=
  (z + 4) % 7

/-- Go `t.Format("2006-01-02")` (msg.go `isoDate`). -/
def isoDate (z : Int) : Str :=
  let c := civilFromDays z
  padInt 4 c.y ++ ['-'] ++ padInt 2 c.m ++ ['-'] ++ padInt 2 c.d

/-- Go `t.Format("2006-01")`. -/
def formatYearMonth (c : Civil) : Str :=
  padInt 4 c.y ++ ['-'] ++ padInt 2 c.m

/-- Go `t.Format("2006")`. -/
def formatYear (c : Civil) : Str :=
  padInt 4 c.y

/-- Go `t.Format("2006-01")` applied to a day number. -/
def isoYearMonth (z : Int) : Str :=
  formatYearMonth (civilFromDays z)

/-- Proleptic Gregorian leap-year rule (as applied by Go's time package). -/
def isLeapYear (y : Int) : Bool :=
  y % 4 = 0 && (!(y % 100 = 0) || y % 400 = 0)

/-- Number of days in the given month of the given year. -/
def daysInMonth (y m : Int) : Int :=
  if m = 1 then 31
  else if m = 2 then (if isLeapYear y then 29 else 28)
  else if m = 3 then 31
  else if m = 4 then 30
  else if m = 5 then 31
  else if m = 6 then 30
  else if m = 7 then 31
  else if m = 8 then 31
  else if m = 9 then 30
  else if m = 10 then 31
  else if m = 11 then 30
  else if m = 12 then 31
  else 0

/-- Go `t.AddDate(years, months, days)` on a day number.  Go's `Date`
constructor first normalizes the month into the year (Euclidean, matching
Go's `norm`), then treats the (possibly out-of-range) day as a linear offset
from the first of the normalized month. -/
def goAddDate (t ys ms ds : Int) : Int :=
  let c := civilFromDays t
  let mi := c.m + ms - 1
  let y' := c.y + ys + mi / 12
  let m' := mi % 12 + 1
  daysFromCivil y' m' 1 + (c.d + ds - 1)

/-- The distinct error conditions produced by the parsing core.  Each
constructor corresponds to one error message in the source:
* `noParserFound arg`   — "No parser found for argument: <arg>"
* `unbalancedModifiers tok` — "Unbalanced modifiers: <tok>"
* `invalidDate s`       — "Not a valid date: <s>"
* `invalidYearMonth s`  — "Not a valid year-month: <s>"
* `atoiErr s`           — strconv.Atoi parse failure on <s>
* `missingArgument name` — "No argument for parameter <name>"
* `missingSingleTask`   — "Require single task but none is given"
* `multipleSingleTask`  — "Require single task but several are given"
* `reservedAllTask`     — "Require single task name but found ':all'"
* `missingMultiTask`    — "Require one or more tasks but none is given"
* `mixedAllTasks`       — "When given, ':all' must be the only task"
* `invalidTaskName s`   — "Invalid task name: <s>"
* `missingQueryArgs`    — "Missing arguments for query request."
-/
inductive GoErr where
  | noParserFound (arg : Str)
  | unbalancedModifiers (tok : Str)
  | invalidDate (s : Str)
  | invalidYearMonth (s : Str)
  | atoiErr (s : Str)
  | missingArgument (name : Str)
  | missingSingleTask
  | multipleSingleTask
  | reservedAllTask
  | missingMultiTask
  | mixedAllTasks
  | invalidTaskName (s : Str)
  | missingQueryArgs
deriving DecidableEq, Repr

/-- Outcome of running a piece of Go code that may return normally, return an
error, or panic. -/
inductive Outcome (α : Type) where
  | ok : α → Outcome α
  | error : GoErr → Outcome α
  | panicked : Str → Outcome α
deriving DecidableEq, Repr

/-- msg.Quantity: a typed quantity with a kind tag (`Type`) and its string
values (`Elems`). -/
structure Quantity where
  qtype : Str
  elems : List Str
deriving DecidableEq, Repr

/-- msg.QueryParam: `type QueryParam []string`; the first entry is the kind
tag ("day" / "month" / "year" / "between"), the rest are its values. -/
abbrev QueryParam := List Str

/-- The fields of msg.Cmd touched by the parsing core: the operation name,
the selected tasks, and the accumulated quantities. -/
structure Cmd where
  op : Str
  tasks : List Str
  quantities : List Quantity
deriving DecidableEq, Repr

/-- argparse.AllTasks: the reserved "all tasks" sentinel,
ParamIdentifierPrefix + "all" with prefix ":". -/
def allTasks : Str := (r":all").toList

/-- argparse.isParamIdentifier: does the token start with the one-character
flag marker ":"? -/
def isParamIdent (s : Str) : Bool :=
  startsWithChar ':' s

/-- argparse.validTaskName: a task name is valid iff it is not flag-shaped
and contains no whitespace. -/
def validTaskName (name : Str) : Bool :=
  if isParamIdent name then false
  else if hasWhitespace name then false
  else true

/-- The validation loop inside argparse.GetTaskNames: reject the first
invalid name, in order. -/
def checkTaskNames : List Str → Except GoErr Unit
  | [] => .ok ()
  | t :: rest =>
    if validTaskName t then checkTaskNames rest
    else .error (.invalidTaskName t)

/-- argparse.GetTaskNames: the sentinel alone passes unchanged; otherwise the
field is split on commas and every fragment must be a valid task name. -/
def GetTaskNames (taskField : Str) : Except GoErr (List Str) :=
  if taskField = allTasks then .ok [allTasks]
  else
    match checkTaskNames (splitOnChar ',' taskField) with
    | .error e => .error e
    | .ok _ => .ok (splitOnChar ',' taskField)

/-- argparse.noTaskHandler.handleTasks: passes all tokens through untouched. -/
def noTaskHandler (cmd : Cmd) (args : List Str) : Except GoErr (Cmd × List Str) :=
  .ok (cmd, args)

/-- argparse.singleTaskHandler.handleTasks.  `tasks[0]` is read as `headD`
here; at that point the length checks guarantee the list is a singleton. -/
def singleTaskHandler (cmd : Cmd) (args : List Str) : Except GoErr (Cmd × List Str) :=
  match args with
  | [] => .error .missingSingleTask
  | a :: rest =>
    match GetTaskNames a with
    | .error e => .error e
    | .ok tasks =>
      if tasks.length = 0 then .error .missingSingleTask
      else if tasks.length > 1 then .error .multipleSingleTask
      else if tasks.headD [] = allTasks then .error .reservedAllTask
      else .ok ({ cmd with tasks := tasks }, rest)

/-- argparse.multiTaskHandler.handleTasks.  The inner range loop that scans
for the sentinel among several names is rendered as `List.any`. -/
def multiTaskHandler (cmd : Cmd) (args : List Str) : Except GoErr (Cmd × List Str) :=
  match args with
  | [] => .error .missingMultiTask
  | a :: rest =>
    match GetTaskNames a with
    | .error e => .error e
    | .ok tasks =>
      if tasks.length = 0 then .error .missingMultiTask
      else if tasks.length > 1 && tasks.any (fun t => decide (t = allTasks)) then
        .error .mixedAllTasks
      else .ok ({ cmd with tasks := tasks }, rest)

/-- argparse.Param: one registry entry.  The Quantifier capability is
modelled by its Parse function. -/
structure Param where
  name : Str
  requiresArg : Bool
  quantifier : Str → Except GoErr (List Quantity)
  description : Str

/-- A Go `map[string]Param`: `none` is the nil map (readable, but writes
panic). -/
abbrev GoMap := Option (List (Str × Param))

/-- Read access to a Go map; a nil map behaves like an empty one. -/
def mapLookup (m : GoMap) (k : Str) : Option Param :=
  match m with
  | none => none
  | some l => (l.find? (fun p => decide (p.1 = k))).map (fun p => p.2)

/-- Write access to a Go map; assignment to an entry in a nil map panics. -/
def mapInsert (m : GoMap) (k : Str) (v : Param) : Outcome GoMap :=
  match m with
  | none => .panicked ((r"assignment to entry in nil map").toList)
  | some l => .ok (some (l ++ [(k, v)]))

/-- argparse.cleanParam: strip any `=value` suffix, then every leading
colon. -/
def cleanParam (s : Str) : Str :=
  dropLeadingColons (firstPiece '=' s)

/-- The scan loop of argparse.paramHandler.HandleArgs, returning the unused
tokens together with the quantity list the loop accumulates in its local
`quant` variable.  Faithful points to note:
* a token that is not flag-shaped goes to `unused`;
* a flag-shaped token whose cleaned name misses the registry is dropped (the
  lookup has no else branch: no error, and not added to `unused` either);
* a flag that requires an argument takes it from the `=` suffix if present,
  otherwise consumes the next whole token (the recursive call continues after
  it), failing when no next token exists;
* on error the accumulated unused/quant data is discarded, as the only
  caller ignores it. -/
def scanParams (pm : GoMap) : List Str → Except GoErr (List Str × List Quantity)
  | [] => .ok ([], [])
  | arg :: rest =>
    if isParamIdent arg then
      match mapLookup pm (cleanParam arg) with
      | some param =>
        if param.requiresArg then
          if containsChar '=' arg then
            match param.quantifier (secondPiece '=' arg) with
            | .error e => .error e
            | .ok q =>
              match scanParams pm rest with
              | .error e => .error e
              | .ok (u, qs) => .ok (u, q ++ qs)
          else
            match rest with
            | [] => .error (.missingArgument param.name)
            | v :: rest' =>
              match param.quantifier v with
              | .error e => .error e
              | .ok q =>
                match scanParams pm rest' with
                | .error e => .error e
                | .ok (u, qs) => .ok (u, q ++ qs)
        else
          match param.quantifier [] with
          | .error e => .error e
          | .ok q =>
            match scanParams pm rest with
            | .error e => .error e
            | .ok (u, qs) => .ok (u, q ++ qs)
      | none => scanParams pm rest
    else
      match scanParams pm rest with
      | .error e => .error e
      | .ok (u, qs) => .ok (arg :: u, qs)

/-- argparse.paramHandler: the registry-backed ArgHandler. -/
structure paramHandler where
  params : GoMap

/-- argparse.paramHandler.HandleArgs.  The source runs the scan and then
executes `return unused, nil`: the quantity list accumulated by the loop is
never assigned to any field of `cmd`, and `cmd` is returned exactly as it
came in. -/
def paramHandler.HandleArgs (h : paramHandler) (cmd : Cmd) (args : List Str) :
    Except GoErr (Cmd × List Str) :=
  match scanParams h.params args with
  | .error e => .error e
  | .ok (unused, _quant) => .ok (cmd, unused)

/-- The registration loop of argparse.HandlerForParams, threading the map
being built. -/
def buildParamMap (pm : GoMap) : List Param → Outcome paramHandler
  | [] => .ok ⟨pm⟩
  | p :: rest =>
    match mapLookup pm p.name with
    | some _ => .panicked ((r"Duplicate param name: ").toList ++ p.name)
    | none =>
      match mapInsert pm p.name p with
      | .panicked s => .panicked s
      | .error e => .error e
      | .ok pm' => buildParamMap pm' rest

/-- argparse.HandlerForParams: `var pmap map[string]Param` declares a nil map
and the loop inserts into it without ever allocating it. -/
def HandlerForParams (params : List Param) : Outcome paramHandler :=
  buildParamMap none params

/-- argparse.Parser: a command parser composed of an optional task handler
and an optional argument handler, each modelled by its handling function. -/
structure Parser where
  command : Str
  taskHandler : Option (Cmd → List Str → Except GoErr (Cmd × List Str))
  argHandler : Option (Cmd → List Str → Except GoErr (Cmd × List Str))

/-- The command skeleton Parse starts from: `msg.Cmd{Op: p.command}`. -/
def Parser.initCmd (p : Parser) : Cmd :=
  ⟨p.command, [], []⟩

/-- argparse.Parser.Parse: panic when no task handler is configured; run it;
return its error if any; only then panic when no argument handler is
configured; run it; warn about (and discard) unused tokens.  The stderr
warning is not modelled. -/
def Parser.Parse (p : Parser) (args : List Str) : Outcome Cmd :=
  match p.taskHandler with
  | none => .panicked ((r"Argument parser does not know how to handle tasks").toList)
  | some th =>
    match th p.initCmd args with
    | .error e => .error e
    | .ok (cmd', restArgs) =>
      match p.argHandler with
      | none => .panicked ((r"Argument parser does not know how to handle parameters").toList)
      | some ah =>
        match ah cmd' restArgs with
        | .error e => .error e
        | .ok (cmd'', _unusedArgs) => .ok cmd''

/-- msg.go flag identifiers (the older, "--"-prefixed generation that owns the
temporal query language). -/
def prmToday : Str := (r"--today").toList

/-- Flag identifier "--yesterday". -/
def prmYesterday : Str := (r"--yesterday").toList

/-- Flag identifier "--ever". -/
def prmEver : Str := (r"--ever").toList

/-- Flag identifier "--day". -/
def prmDate : Str := (r"--day").toList

/-- Flag identifier "--month". -/
def prmMonth : Str := (r"--month").toList

/-- Flag identifier "--year". -/
def prmYear : Str := (r"--year").toList

/-- Flag identifier "--weeks-ago". -/
def prmWeeksAgo : Str := (r"--weeks-ago").toList

/-- Flag identifier "--months-ago". -/
def prmMonthsAgo : Str := (r"--months-ago").toList

/-- Flag identifier "--years-ago". -/
def prmYearsAgo : Str := (r"--years-ago").toList

/-- Flag identifier "--this-week". -/
def prmThisWeek : Str := (r"--this-week").toList

/-- Flag identifier "--last-week". -/
def prmLastWeek : Str := (r"--last-week").toList

/-- Flag identifier "--this-month". -/
def prmThisMonth : Str := (r"--this-month").toList

/-- Flag identifier "--last-month". -/
def prmLastMonth : Str := (r"--last-month").toList

/-- Flag identifier "--this-year". -/
def prmThisYear : Str := (r"--this-year").toList

/-- Flag identifier "--last-year". -/
def prmLastYear : Str := (r"--last-year").toList

/-- Flag identifier "--since". -/
def prmSince : Str := (r"--since").toList

/-- Flag identifier "--between". -/
def prmBetween : Str := (r"--between").toList

/-- Query detail kind tag "day". -/
def qryDay : Str := (r"day").toList

/-- Query detail kind tag "month". -/
def qryMonth : Str := (r"month").toList

/-- Query detail kind tag "year". -/
def qryYear : Str := (r"year").toList

/-- Query detail kind tag "between". -/
def qryBetween : Str := (r"between").toList

/-- Is the character a decimal digit? -/
def isDigitCh (c : Char) : Bool :=
  c.isDigit

/-- Numeric value of a digit character. -/
def digitVal (c : Char) : Int :=
  (c.toNat : Int) - 48

/-- msg.isValidIsoDate: whether `time.Parse("2006-01-02", s)` succeeds, i.e.
the string is exactly `yyyy-mm-dd` with a real month and a day that exists in
that month of that year. -/
def checkIsoDate : Str → Bool
  | [y1, y2, y3, y4, s1, m1, m2, s2, d1, d2] =>
    isDigitCh y1 && isDigitCh y2 && isDigitCh y3 && isDigitCh y4 &&
    s1 = '-' && isDigitCh m1 && isDigitCh m2 &&
    s2 = '-' && isDigitCh d1 && isDigitCh d2 &&
    (let y := 1000 * digitVal y1 + 100 * digitVal y2 + 10 * digitVal y3 + digitVal y4
     let mo := 10 * digitVal m1 + digitVal m2
     let dd := 10 * digitVal d1 + digitVal d2
     decide (1 ≤ mo ∧ mo ≤ 12 ∧ 1 ≤ dd ∧ dd ≤ daysInMonth y mo))
  | _ => false

/-- msg.isValidYearMonth: whether `time.Parse("2006-01", s)` succeeds. -/
def checkYearMonth : Str → Bool
  | [y1, y2, y3, y4, s1, m1, m2] =>
    isDigitCh y1 && isDigitCh y2 && isDigitCh y3 && isDigitCh y4 &&
    s1 = '-' && isDigitCh m1 && isDigitCh m2 &&
    (let mo := 10 * digitVal m1 + digitVal m2
     decide (1 ≤ mo ∧ mo ≤ 12))
  | _ => false

/-- Digits of an unsigned decimal numeral, most significant first. -/
def digitsToNat (s : Str) : Nat :=
  s.foldl (fun acc c => 10 * acc + (c.toNat - 48)) 0

/-- Go strconv.Atoi: optional sign followed by at least one digit (integer
overflow is out of scope for the claims and not modelled). -/
def atoi (s : Str) : Except GoErr Int :=
  match s with
  | '+' :: rest =>
    if rest ≠ [] && rest.all isDigitCh then .ok (digitsToNat rest : Int)
    else .error (.atoiErr ('+' :: rest))
  | '-' :: rest =>
    if rest ≠ [] && rest.all isDigitCh then .ok (-(digitsToNat rest : Int))
    else .error (.atoiErr ('-' :: rest))
  | l =>
    if l ≠ [] && l.all isDigitCh then .ok (digitsToNat l : Int)
    else .error (.atoiErr l)

/-- msg.daysAgo: the calendar date `now − days`, as a Day detail.
`AddDate(0, 0, -days)` adds exactly that many calendar days. -/
def daysAgo (now days : Int) : QueryParam :=
  [qryDay, isoDate (now - days)]

/-- msg.weeksAgo: the Mon–Sun week the given number of weeks ago, with the
end clamped to `now`.  `end.After(now)` compares two instants carrying the
same time of day, so it reduces to comparing the day numbers. -/
def weeksAgo (now weeks : Int) : QueryParam :=
  let daysSinceLastMonday := (goWeekday now + 6) % 7
  let start := now - (daysSinceLastMonday + 7 * weeks)
  let finish := start + 6
  let clamped := if finish > now then now else finish
  [qryBetween, isoDate start, isoDate clamped]

/-- msg.monthsAgo: `now.AddDate(0, -months, -(now.Day()-1))` formatted as
`yyyy-mm` — normalize to the first of the month while stepping back. -/
def monthsAgo (now months : Int) : QueryParam :=
  let firstInMonth := goAddDate now 0 (-months) (-((civilFromDays now).d - 1))
  [qryMonth, formatYearMonth (civilFromDays firstInMonth)]

/-- msg.yearsAgo: `now.AddDate(-years, 0, 0)` formatted as `yyyy`. -/
def yearsAgo (now years : Int) : QueryParam :=
  let start := goAddDate now (-years) 0 0
  [qryYear, formatYear (civilFromDays start)]

/-- msg.getDate: validate a `yyyy-mm-dd` modifier into a Day detail. -/
def getDate (mod : Str) (_now : Int) : Except GoErr QueryParam :=
  if checkIsoDate mod then .ok [qryDay, mod]
  else .error (.invalidDate mod)

/-- msg.getMonth: validate a `yyyy-mm` modifier into a Month detail. -/
def getMonth (mod : Str) (_now : Int) : Except GoErr QueryParam :=
  if checkYearMonth mod then .ok [qryMonth, mod]
  else .error (.invalidYearMonth mod)

/-- msg.getMonthsAgo: integer modifier, then delegate to monthsAgo. -/
def getMonthsAgo (mod : Str) (now : Int) : Except GoErr QueryParam :=
  match atoi mod with
  | .error e => .error e
  | .ok num => .ok (monthsAgo now num)

/-- msg.getYear: integer modifier, printed back via fmt.Sprint. -/
def getYear (mod : Str) (_now : Int) : Except GoErr QueryParam :=
  match atoi mod with
  | .error e => .error e
  | .ok year => .ok [qryYear, intToChars year]

/-- msg.getYearsAgo: integer modifier, then delegate to yearsAgo. -/
def getYearsAgo (mod : Str) (now : Int) : Except GoErr QueryParam :=
  match atoi mod with
  | .error e => .error e
  | .ok num => .ok (yearsAgo now num)

/-- msg.getSince: a Between detail from the given ISO date to today. -/
def getSince (mod : Str) (now : Int) : Except GoErr QueryParam :=
  if checkIsoDate mod then .ok [qryBetween, mod, isoDate now]
  else .error (.invalidDate mod)

/-- msg.getSinceEpoch: `getSince("1970-01-01", now)` with the error ignored
(the zero QueryParam is the empty list). -/
def getSinceEpoch (now : Int) : QueryParam :=
  match getSince ((r"1970-01-01").toList) now with
  | .ok details => details
  | .error _ => []

/-- msg.detailParser: a temporal detail parser with its modifier arity, its
flag identifier, and its parse function. -/
structure DetailParser where
  nMods : Nat
  ident : Str
  parse : Int → List Str → Outcome QueryParam

/-- msg.noModDetailParser: zero modifiers, parse never fails. -/
def noModParser (id : Str) (f : Int → QueryParam) : DetailParser :=
  ⟨0, id, fun now _ => .ok (f now)⟩

/-- msg.singleModDetailParser: exactly one modifier, panicking on any other
arity. -/
def singleModParser (id : Str) (f : Str → Int → Except GoErr QueryParam) : DetailParser :=
  ⟨1, id, fun now mods =>
    match mods with
    | [m] =>
      match f m now with
      | .error e => .error e
      | .ok d => .ok d
    | _ => .panicked ((r"Parser can only accept one modifier at a time").toList)⟩

/-- msg.betweenDetailParser: exactly two modifiers, both valid ISO dates,
panicking on any other arity. -/
def betweenParser : DetailParser :=
  ⟨2, prmBetween, fun _now mods =>
    match mods with
    | [d1, d2] =>
      if checkIsoDate d1 then
        if checkIsoDate d2 then .ok [qryBetween, d1, d2]
        else .error (.invalidDate d2)
      else .error (.invalidDate d1)
    | _ => .panicked ((r"Parser must be given two modifiers at a time").toList)⟩

/-- msg.getDetailParsers: the sixteen registered temporal detail parsers, in
registration order. -/
def getDetailParsers : List DetailParser :=
  [ noModParser prmToday (fun now => daysAgo now 0),
    noModParser prmYesterday (fun now => daysAgo now 1),
    noModParser prmThisWeek (fun now => weeksAgo now 0),
    noModParser prmLastWeek (fun now => weeksAgo now 1),
    noModParser prmThisMonth (fun now => monthsAgo now 0),
    noModParser prmLastMonth (fun now => monthsAgo now 1),
    noModParser prmThisYear (fun now => yearsAgo now 0),
    noModParser prmLastYear (fun now => yearsAgo now 1),
    noModParser prmEver getSinceEpoch,
    singleModParser prmDate getDate,
    singleModParser prmMonth getMonth,
    singleModParser prmMonthsAgo getMonthsAgo,
    singleModParser prmYear getYear,
    singleModParser prmYearsAgo getYearsAgo,
    singleModParser prmSince getSince,
    betweenParser ]

/-- msg.findParser: first registered parser whose identifier matches. -/
def findParser (arg : Str) : Option DetailParser :=
  getDetailParsers.find? (fun p => decide (p.ident = arg))

/-- msg.getModifiers: read the modifier list either from the `=` suffix of
the current token or from the next token.  Two faithful quirks: when the
modifiers come from the next token, (1) reading past the end of the argument
list is an index-out-of-range panic (there is no bounds check), and (2) the
increment happens on a local copy of the index, which is never written back
through `iref` — so the caller's cursor does not advance and the value token
is scanned again (see `qpLoop`). -/
def getModifiersM (a : Str) (rest : List Str) : Outcome (List Str) :=
  if containsChar '=' a then .ok (splitOnChar ',' (secondPiece '=' a))
  else
    match rest with
    | [] => .panicked ((r"runtime error: index out of range").toList)
    | v :: _ => .ok (splitOnChar ',' v)

/-- The modifier-consuming loop inside msg.getQueryParams
(`for len(modifiers) > 0 { … }`), which repeatedly takes `nMods` fragments,
parses them, and appends the detail.  Fewer fragments than the arity left
over is an unbalanced-modifiers error carrying the current token.  The
leading arity-zero guard is unreachable from `qpLoop` (the loop body only
runs when `numberModifiers() > 0`) and exists to make the recursion
well-founded. -/
def chunkMods (p : DetailParser) (now : Int) (tok : Str) (mods : List Str) :
    Outcome (List QueryParam) :=
  if p.nMods = 0 then .ok []
  else if mods.isEmpty then .ok []
  else if mods.length < p.nMods then .error (.unbalancedModifiers tok)
  else
    match p.parse now (mods.take p.nMods) with
    | .panicked s => .panicked s
    | .error e => .error e
    | .ok d =>
      match chunkMods p now tok (mods.drop p.nMods) with
      | .panicked s => .panicked s
      | .error e => .error e
      | .ok ds => .ok (d :: ds)
termination_by mods.length
decreasing_by
  simp only [List.length_drop]
  rename_i h0 _hemp hlen
  omega

/-- The scan loop of msg.getQueryParams over the argument tokens.  Empty
tokens are skipped; an unrecognized token fails the parse; a parser with
modifiers reads them via `getModifiersM` and chunks them; because the cursor
is never advanced past a next-token modifier (see `getModifiersM`), the
recursion always continues with `rest`. -/
def qpLoop (now : Int) : List Str → Outcome (List QueryParam)
  | [] => .ok []
  | a :: rest =>
    if a = [] then qpLoop now rest
    else
      match findParser (firstPiece '=' a) with
      | none => .error (.noParserFound (firstPiece '=' a))
      | some p =>
        if p.nMods > 0 then
          match getModifiersM a rest with
          | .panicked s => .panicked s
          | .error e => .error e
          | .ok mods =>
            match chunkMods p now a mods with
            | .panicked s => .panicked s
            | .error e => .error e
            | .ok ds =>
              match qpLoop now rest with
              | .panicked s => .panicked s
              | .error e => .error e
              | .ok more => .ok (ds ++ more)
        else
          match p.parse now [] with
          | .panicked s => .panicked s
          | .error e => .error e
          | .ok d =>
            match qpLoop now rest with
            | .panicked s => .panicked s
            | .error e => .error e
            | .ok more => .ok (d :: more)

/-- msg.getQueryParams.  `now` is the injected instant threaded to the detail
parsers; `wallNow` models the separate, direct `time.Now()` call the source
makes when the argument list is empty. -/
def getQueryParams (now wallNow : Int) (args : List Str) : Outcome (List QueryParam) :=
  if args.isEmpty then .ok [[qryDay, isoDate wallNow]]
  else qpLoop now args

/-- query/parse.go getQueryParams: the newer generation's body is commented
out and replaced by an unconditional panic. -/
def queryGetQueryParams (_args : List Str) (_now : Int) : Outcome (List Quantity) :=
  .panicked ((r"Calling obsolete method getQueryParams").toList)

/-- query/parse.go parseQueryArgs: reads the wall clock, rejects an empty
argument list, and otherwise calls the package's own (obsolete, panicking)
getQueryParams; on success it would store the result in `cmd.Quantities`. -/
def queryParseQueryArgs (_wallNow : Int) (args : List Str) (cmd : Cmd) : Outcome Cmd :=
  if args.isEmpty then .error .missingQueryArgs
  else
    match queryGetQueryParams args _wallNow with
    | .panicked s => .panicked s
    | .error e => .error e
    | .ok params => .ok { cmd with quantities := params }

/-- query/parse.go queryArgHandler.HandleArgs: calls parseQueryArgs,
*discarding* both its error and its command, and returns `nil, nil` — so a
panic inside parseQueryArgs propagates, an error is swallowed, and no unused
tokens are ever reported. -/
def queryArgHandlerHandleArgs (wallNow : Int) (cmd : Cmd) (args : List Str) :
    Outcome (Cmd × List Str) :=
  match queryParseQueryArgs wallNow args cmd with
  | .panicked s => .panicked s
  | _ => .ok (cmd, [])

/-- argparse.noArgHandler.HandleArgs: passes all tokens through as unused. -/
def noArgHandler (cmd : Cmd) (args : List Str) : Except GoErr (Cmd × List Str) :=
  .ok (cmd, args)

/-- Consecutive pairing of a fragment list into Between details, two at a
time in order, as the specification describes the repeated `between`
modifier list. -/
def betweenPairs : List Str → List QueryParam
  | d1 :: d2 :: rest => [qryBetween, d1, d2] :: betweenPairs rest
  | _ => []

/-- Sample quantity produced by the sample `today` registry entry. -/
def qTodaySample : Quantity :=
  ⟨qryDay, [(r"2021-05-31").toList]⟩

/-- Sample registry entry without an argument. -/
def pTodaySample : Param :=
  ⟨(r"today").toList, false, fun _ => .ok [qTodaySample], []⟩

/-- Sample registry entry that requires an argument; its quantifier echoes
the argument into a Between quantity. -/
def pSinceSample : Param :=
  ⟨(r"since").toList, true, fun s => .ok [⟨qryBetween, [s]⟩], []⟩

/-- Sample two-entry registry map. -/
def pmSample : GoMap :=
  some [((r"today").toList, pTodaySample), ((r"since").toList, pSinceSample)]

/-- Sample command skeleton. -/
def cmdQuery : Cmd :=
  ⟨(r"query").toList, [], []⟩

/-- Sample flag tokens. -/
def tokToday : Str := (r":today").toList

/-- Flag-shaped token with an unregistered name. -/
def tokBogus : Str := (r":bogus").toList

/-- Flag token of the argument-requiring sample entry. -/
def tokSince : Str := (r":since").toList

/-- Sample ISO dates from the specification's `between` example. -/
def dateA : Str := (r"2020-01-01").toList

/-- Second sample date. -/
def dateB : Str := (r"2020-01-31").toList

/-- Third sample date. -/
def dateC : Str := (r"2020-02-01").toList

/-- Fourth sample date. -/
def dateD : Str := (r"2020-02-28").toList

/-- Token used only inside unbalanced-modifier error payloads. -/
def tokBetween : Str := (r"--between").toList

/-- C10: for every non-empty list of Params — even with all names distinct —
HandlerForParams panics on registering the first Param, because the
name-to-Param map it inserts into is declared but never allocated (a nil
map); only the empty Param list yields a handler without panicking. -/
theorem handlerForParams_panics_on_nonempty :
    (∀ (p : Param) (rest : List Param),
      HandlerForParams (p :: rest) =
        .panicked ((r"assignment to entry in nil map").toList))
    ∧ HandlerForParams [] = .ok ⟨none⟩ :=
  ⟨fun _ _ => rfl, rfl⟩

/-- C9 counterexample: a parser with a configured single-task handler but no
argument handler, invoked on the empty argument list, returns the task
stage's error instead of panicking — so Parse does not panic for every
argument list when the argument handler is missing. -/
theorem parse_task_error_masks_missing_arg_handler :
    Parser.Parse ⟨(r"query").toList, some singleTaskHandler, none⟩ [] =
      .error .missingSingleTask :=
  rfl

/-- C9 (amended): Parse panics on a missing task handler for every argument
list; a missing argument handler panics only when the task stage succeeds,
while a task-stage error is returned before the argument handler is
examined; with both handlers configured Parse never panics. -/
theorem parse_missing_handler_panics :
    (∀ (p : Parser) (args : List Str), p.taskHandler = none →
      p.Parse args = .panicked ((r"Argument parser does not know how to handle tasks").toList))
    ∧ (∀ (p : Parser) (th : Cmd → List Str → Except GoErr (Cmd × List Str))
        (args : List Str) (res : Cmd × List Str),
        p.taskHandler = some th → p.argHandler = none → th p.initCmd args = .ok res →
        p.Parse args = .panicked ((r"Argument parser does not know how to handle parameters").toList))
    ∧ (∀ (p : Parser) (th : Cmd → List Str → Except GoErr (Cmd × List Str))
        (args : List Str) (e : GoErr),
        p.taskHandler = some th → p.argHandler = none → th p.initCmd args = .error e →
        p.Parse args = .error e)
    ∧ (∀ (p : Parser) (th ah : Cmd → List Str → Except GoErr (Cmd × List Str))
        (args : List Str) (s : Str),
        p.taskHandler = some th → p.argHandler = some ah →
        p.Parse args ≠ .panicked s) := by
  refine ⟨?_, ?_, ?_, ?_⟩
  · intro p args h
    simp [Parser.Parse, h]
  · intro p th args res h1 h2 h3
    obtain ⟨c, r⟩ := res
    simp [Parser.Parse, h1, h2, h3]
  · intro p th args e h1 h2 h3
    simp [Parser.Parse, h1, h2, h3]
  · intro p th ah args s h1 h2
    simp only [Parser.Parse, h1, h2]
    cases hth : th p.initCmd args with
    | error e => simp
    | ok res =>
      obtain ⟨c, r⟩ := res
      cases hah : ah c r with
      | error e => simp [hah]
      | ok res' =>
        obtain ⟨c', r'⟩ := res'
        simp [hah]

/-- C9 witness: concrete parsers exercising every part of the amended
statement. -/
theorem parse_missing_handler_panics_witness :
    Parser.Parse ⟨(r"x").toList, none, none⟩ [] =
      .panicked ((r"Argument parser does not know how to handle tasks").toList)
    ∧ Parser.Parse ⟨(r"x").toList, some noTaskHandler, none⟩ [] =
      .panicked ((r"Argument parser does not know how to handle parameters").toList)
    ∧ Parser.Parse ⟨(r"query").toList, some singleTaskHandler, none⟩ [] =
      .error .missingSingleTask
    ∧ Parser.Parse ⟨(r"x").toList, some noTaskHandler, some noArgHandler⟩ [] ≠
      .panicked ((r"Argument parser does not know how to handle tasks").toList) := by
  refine ⟨?_, ?_, ?_, ?_⟩
  · exact parse_missing_handler_panics.1 _ [] rfl
  · exact parse_missing_handler_panics.2.1 _ noTaskHandler [] (⟨(r"x").toList, [], []⟩, []) rfl rfl rfl
  · exact parse_missing_handler_panics.2.2.1 _ singleTaskHandler [] .missingSingleTask rfl rfl rfl
  · exact parse_missing_handler_panics.2.2.2 _ noTaskHandler noArgHandler [] _ rfl rfl

/-- C1: at a concrete input the scan loop does produce the quantity, yet
HandleArgs succeeds with the command unchanged (no Quantities field is ever
assigned), and the newer query-side ArgHandler panics through the obsolete
getQueryParams before it could store anything — the produced quantities are
lost. -/
theorem paramHandler_drops_quantities :
    scanParams pmSample [tokToday] = .ok ([], [qTodaySample])
    ∧ paramHandler.HandleArgs ⟨pmSample⟩ cmdQuery [tokToday] = .ok (cmdQuery, [])
    ∧ cmdQuery.quantities = []
    ∧ queryArgHandlerHandleArgs 0 cmdQuery [dateA] =
        .panicked ((r"Calling obsolete method getQueryParams").toList) :=
  ⟨rfl, rfl, rfl, rfl⟩

/-- C2 counterexample: the token list `[:bogus, :today]` contains the
flag-shaped token `:bogus` whose stripped name is not registered, yet
HandleArgs succeeds (no UnknownParameter error, and the token is not in the
unused list either). -/
theorem unknown_flag_not_an_error :
    isParamIdent tokBogus = true
    ∧ mapLookup pmSample (cleanParam tokBogus) = none
    ∧ paramHandler.HandleArgs ⟨pmSample⟩ cmdQuery [tokBogus, tokToday] =
        .ok (cmdQuery, []) :=
  ⟨rfl, rfl, rfl⟩

/-- C2 (amended): a flag-shaped token whose stripped name is not in the
registry is silently skipped by the scan — it produces no error and is not
reported as unused; the scan simply continues with the remaining tokens. -/
theorem unknown_flag_silently_skipped (pm : GoMap) (tok : Str) (rest : List Str)
    (hflag : isParamIdent tok = true)
    (hmiss : mapLookup pm (cleanParam tok) = none) :
    scanParams pm (tok :: rest) = scanParams pm rest := by
  simp [scanParams, hflag, hmiss]

/-- C2 witness: the silent skip at the concrete registry and token list of
the counterexample. -/
theorem unknown_flag_silently_skipped_witness :
    scanParams pmSample [tokBogus, tokToday] = scanParams pmSample [tokToday] :=
  unknown_flag_silently_skipped pmSample tokBogus [tokToday] rfl rfl

/-- C3: for a registered flag requiring an argument, given without an `=`
suffix: the immediately following whole token is consumed as the argument
and the scan continues after it (the token is not re-processed); with no
following token, the scan fails with the missing-argument error. -/
theorem requires_arg_consumes_next_token (pm : GoMap) (tok v : Str)
    (rest : List Str) (param : Param)
    (hflag : isParamIdent tok = true)
    (hlook : mapLookup pm (cleanParam tok) = some param)
    (hreq : param.requiresArg = true)
    (hnoeq : containsChar '=' tok = false) :
    (scanParams pm (tok :: v :: rest) =
      match param.quantifier v with
      | .error e => .error e
      | .ok q =>
        match scanParams pm rest with
        | .error e => .error e
        | .ok (u, qs) => .ok (u, q ++ qs))
    ∧ scanParams pm [tok] = .error (.missingArgument param.name) := by
  constructor
  · simp [scanParams, hflag, hlook, hreq, hnoeq]
  · simp [scanParams, hflag, hlook, hreq, hnoeq]

/-- C3 witness: the sample `since` entry consumes the next token as its
argument (which therefore does not reach the unused list), and fails with
the missing-argument error when it is the final token. -/
theorem requires_arg_consumes_next_token_witness :
    scanParams pmSample [tokSince, dateA] = .ok ([], [⟨qryBetween, [dateA]⟩])
    ∧ scanParams pmSample [tokSince] =
        .error (.missingArgument ((r"since").toList)) := by
  have h := requires_arg_consumes_next_token pmSample tokSince dateA [] pSinceSample
    rfl rfl rfl rfl
  exact ⟨h.1.trans rfl, h.2⟩

/-- Every name accepted by the validation loop is valid. -/
theorem checkTaskNames_ok_valid (l : List Str) (h : checkTaskNames l = .ok ()) :
    ∀ t ∈ l, validTaskName t = true := by
  induction l with
  | nil => intro t ht; simp at ht
  | cons a rest ih =>
    intro t ht
    by_cases hv : validTaskName a
    · rw [checkTaskNames, if_pos hv] at h
      rcases List.mem_cons.mp ht with rfl | ht'
      · exact hv
      · exact ih h t ht'
    · rw [checkTaskNames, if_neg hv] at h
      exact absurd h (by simp)

/-- The validation loop only ever produces invalid-task-name errors. -/
theorem checkTaskNames_error_shape (l : List Str) (e : GoErr)
    (h : checkTaskNames l = .error e) : ∃ t, e = .invalidTaskName t := by
  induction l with
  | nil => simp [checkTaskNames] at h
  | cons a rest ih =>
    by_cases hv : validTaskName a
    · rw [checkTaskNames, if_pos hv] at h
      exact ih h
    · rw [checkTaskNames, if_neg hv] at h
      exact ⟨a, by simpa using h.symm⟩

/-- GetTaskNames only ever produces invalid-task-name errors. -/
theorem getTaskNames_error_shape (a : Str) (e : GoErr)
    (h : GetTaskNames a = .error e) : ∃ t, e = .invalidTaskName t := by
  by_cases hall : a = allTasks
  · rw [GetTaskNames, if_pos hall] at h
    exact absurd h (by simp)
  · rw [GetTaskNames, if_neg hall] at h
    cases hc : checkTaskNames (splitOnChar ',' a) with
    | error e' =>
      rw [hc] at h
      obtain ⟨t, rfl⟩ := checkTaskNames_error_shape _ _ hc
      exact ⟨t, by simpa using h.symm⟩
    | ok u => obtain ⟨⟩ := u; rw [hc] at h; exact absurd h (by simp)

/-- A successful GetTaskNames result is either the lone sentinel or a list of
valid names. -/
theorem getTaskNames_ok_shape (a : Str) (ts : List Str)
    (h : GetTaskNames a = .ok ts) :
    ts = [allTasks] ∨ ∀ t ∈ ts, validTaskName t = true := by
  by_cases hall : a = allTasks
  · rw [GetTaskNames, if_pos hall] at h
    left
    simpa using h.symm
  · rw [GetTaskNames, if_neg hall] at h
    cases hc : checkTaskNames (splitOnChar ',' a) with
    | error e' => rw [hc] at h; exact absurd h (by simp)
    | ok u =>
      obtain ⟨⟩ := u
      rw [hc] at h
      right
      have hts : ts = splitOnChar ',' a := by simpa using h.symm
      subst hts
      exact checkTaskNames_ok_valid _ hc

/-- C8: the multi-task selector given ":all,x" fails with the
invalid-task-name error (the sentinel starts with the flag marker, so the
name validation inside GetTaskNames rejects it first), and the
mixed-all-tasks error is unreachable: no input whatsoever makes the selector
produce it, because GetTaskNames never returns a several-name list
containing the sentinel. -/
theorem multi_selector_invalid_task_name_not_mixed :
    multiTaskHandler cmdQuery [(r":all,x").toList] =
      .error (.invalidTaskName ((r":all").toList))
    ∧ ∀ (cmd : Cmd) (args : List Str),
        multiTaskHandler cmd args ≠ .error .mixedAllTasks := by
  constructor
  · rfl
  · intro cmd args h
    match args with
    | [] => simp [multiTaskHandler] at h
    | a :: rest =>
      rw [multiTaskHandler] at h
      cases hg : GetTaskNames a with
      | error e =>
        rw [hg] at h
        obtain ⟨t, rfl⟩ := getTaskNames_error_shape _ _ hg
        simp at h
      | ok ts =>
        rw [hg] at h
        rcases getTaskNames_ok_shape _ _ hg with rfl | hvalid
        · simp at h
        · have hany : (ts.any fun t => decide (t = allTasks)) = false := by
            rw [List.any_eq_false]
            intro t ht
            simp only [decide_eq_true_eq]
            intro habs
            have := hvalid t ht
            rw [habs] at this
            exact absurd this (by decide)
          simp only [hany, Bool.and_false] at h
          split at h <;> simp_all

/-- C5: with an empty argument list, getQueryParams builds its default Day
detail from the wall clock (`time.Now()`, modelled by `wallNow`), not from
the injected `now`: injecting 2021-05-30 while the wall clock reads
2021-05-31 yields the Day detail for 2021-05-31, which differs from the
injected instant's date. -/
theorem default_day_reads_wall_clock :
    getQueryParams (daysFromCivil 2021 5 30) (daysFromCivil 2021 5 31) [] =
      .ok [[qryDay, (r"2021-05-31").toList]]
    ∧ isoDate (daysFromCivil 2021 5 30) = (r"2021-05-30").toList
    ∧ (r"2021-05-30").toList ≠ (r"2021-05-31").toList := by
  refine ⟨by decide, by decide, by decide⟩

/-- C4: resolving a `between` modifier list of 2·m fragments, all valid ISO
dates, emits exactly m Between details pairing consecutive fragments two at
a time in order (so none is lost: twice the number of emitted pairs is the
fragment count); an odd fragment count fails with the unbalanced-modifiers
error. -/
theorem between_chunking_pairs (now : Int) (tok : Str) (ds : List Str)
    (hval : ∀ d ∈ ds, checkIsoDate d = true) :
    (ds.length % 2 = 0 →
      chunkMods betweenParser now tok ds = .ok (betweenPairs ds)
      ∧ 2 * (betweenPairs ds).length = ds.length)
    ∧ (ds.length % 2 = 1 →
      chunkMods betweenParser now tok ds = .error (.unbalancedModifiers tok)) := by
  induction ds using betweenPairs.induct with
  | case1 d1 d2 rest ih =>
    have hd1 : checkIsoDate d1 = true := hval d1 (by simp)
    have hd2 : checkIsoDate d2 = true := hval d2 (by simp)
    have ihh := ih (fun d hd => hval d (by simp [hd]))
    have hstep :
        chunkMods betweenParser now tok (d1 :: d2 :: rest) =
          match chunkMods betweenParser now tok rest with
          | .panicked s => .panicked s
          | .error e => .error e
          | .ok more => .ok ([qryBetween, d1, d2] :: more) := by
      rw [chunkMods]
      simp [betweenParser, hd1, hd2]
    constructor
    · intro hev
      have hev' : rest.length % 2 = 0 := by
        simp only [List.length_cons] at hev
        omega
      obtain ⟨hok, hlen⟩ := ihh.1 hev'
      rw [hstep, hok]
      refine ⟨rfl, ?_⟩
      simp [betweenPairs]
      omega
    · intro hodd
      have hodd' : rest.length % 2 = 1 := by
        simp only [List.length_cons] at hodd
        omega
      rw [hstep, ihh.2 hodd']
  | case2 l hne =>
    match l with
    | [] =>
      constructor
      · intro _
        constructor
        · rw [chunkMods]
          simp [betweenParser, betweenPairs]
        · rfl
      · intro habs
        simp at habs
    | [d] =>
      constructor
      · intro habs
        simp at habs
      · intro _
        rw [chunkMods]
        simp [betweenParser]
    | d1 :: d2 :: r => exact absurd rfl (by intro habs; exact (hne d1 d2 r habs).elim)

/-- C4 witness: the specification's example — four dates give exactly the two
Between details (2020-01-01, 2020-01-31) and (2020-02-01, 2020-02-28), and
the odd three-date list is an unbalanced-modifiers failure. -/
theorem between_chunking_pairs_witness :
    chunkMods betweenParser 0 tokBetween [dateA, dateB, dateC, dateD] =
      .ok [[qryBetween, dateA, dateB], [qryBetween, dateC, dateD]]
    ∧ chunkMods betweenParser 0 tokBetween [dateA, dateB, dateC] =
      .error (.unbalancedModifiers tokBetween) := by
  have h4 := between_chunking_pairs 0 tokBetween [dateA, dateB, dateC, dateD] (by decide)
  have h3 := between_chunking_pairs 0 tokBetween [dateA, dateB, dateC] (by decide)
  exact ⟨((h4.1 (by decide)).1).trans rfl, h3.2 (by decide)⟩

/-- The specification's example `between` token in full. -/
def tokB4 : Str :=
  (r"--between=2020-01-01,2020-01-31,2020-02-01,2020-02-28").toList

/-- The full pipeline on the specification's example token: getQueryParams on
a single `--between=…` token with four dates emits the two Between details. -/
theorem getQueryParams_between_example :
    getQueryParams 0 0 [tokB4] =
      .ok [[qryBetween, dateA, dateB], [qryBetween, dateC, dateD]] := by
  have hc0 : chunkMods betweenParser 0 tokB4 [] = .ok [] := by
    rw [chunkMods]
    simp [betweenParser]
  have hc2 : chunkMods betweenParser 0 tokB4 [dateC, dateD] =
      .ok [[qryBetween, dateC, dateD]] := by
    rw [chunkMods]
    show (match chunkMods betweenParser 0 tokB4 ([] : List Str) with
          | Outcome.panicked s => Outcome.panicked s
          | Outcome.error e => Outcome.error e
          | Outcome.ok ds => Outcome.ok ([qryBetween, dateC, dateD] :: ds)) = _
    rw [hc0]
  have hc4 : chunkMods betweenParser 0 tokB4
      (splitOnChar ',' (secondPiece '=' tokB4)) =
      .ok [[qryBetween, dateA, dateB], [qryBetween, dateC, dateD]] := by
    show chunkMods betweenParser 0 tokB4 [dateA, dateB, dateC, dateD] = _
    rw [chunkMods]
    show (match chunkMods betweenParser 0 tokB4 [dateC, dateD] with
          | Outcome.panicked s => Outcome.panicked s
          | Outcome.error e => Outcome.error e
          | Outcome.ok ds => Outcome.ok ([qryBetween, dateA, dateB] :: ds)) = _
    rw [hc2]
  calc getQueryParams 0 0 [tokB4]
      = (match chunkMods betweenParser 0 tokB4
            (splitOnChar ',' (secondPiece '=' tokB4)) with
         | .panicked s => .panicked s
         | .error e => .error e
         | .ok ds =>
           match qpLoop 0 ([] : List Str) with
           | .panicked s => .panicked s
           | .error e => .error e
           | .ok more => Outcome.ok (ds ++ more)) := rfl
    _ = .ok [[qryBetween, dateA, dateB], [qryBetween, dateC, dateD]] := by
        rw [hc4]
        simp [qpLoop]

/-- C6: weeksAgo(now, n) is the Between detail from a Monday `s` with
`s + 7n ≤ now < s + 7n + 7` — i.e. the Monday n full weeks before the Monday
on or before now (a Sunday now lies in the week begun six days earlier) — to
`min(s + 6, now)`, the following Sunday clamped to now. -/
theorem weeksAgo_monday_range (now : Int) (n : Nat) :
    ∃ s e : Int,
      weeksAgo now (n : Int) = [qryBetween, isoDate s, isoDate e]
      ∧ goWeekday s = 1
      ∧ s + 7 * (n : Int) ≤ now
      ∧ now < s + 7 * (n : Int) + 7
      ∧ e = min (s + 6) now := by
  refine ⟨now - ((goWeekday now + 6) % 7 + 7 * (n : Int)),
    if now - ((goWeekday now + 6) % 7 + 7 * (n : Int)) + 6 > now then now
    else now - ((goWeekday now + 6) % 7 + 7 * (n : Int)) + 6,
    rfl, ?_, ?_, ?_, ?_⟩
  · show (now - ((goWeekday now + 6) % 7 + 7 * (n : Int)) + 4) % 7 = 1
    unfold goWeekday
    omega
  · unfold goWeekday
    omega
  · unfold goWeekday
    omega
  · split
    · omega
    · omega

/-- C7: monthsAgo(now, n) emits a Month detail naming exactly the calendar
month n months before now's month: the formatted day number is the *first*
of a month (y', m') that satisfies the exact linear month equation — so the
day of month of `now` never shifts the result into a neighbouring month —
and in particular now = 2021-05-31 with n = 1 yields "2021-04". -/
theorem monthsAgo_exact_calendar_month (now months : Int) :
    ∃ y' m' : Int,
      monthsAgo now months = [qryMonth, isoYearMonth (daysFromCivil y' m' 1)]
      ∧ 1 ≤ m' ∧ m' ≤ 12
      ∧ y' * 12 + (m' - 1) =
          (civilFromDays now).y * 12 + ((civilFromDays now).m - 1) - months
      ∧ monthsAgo (daysFromCivil 2021 5 31) 1 = [qryMonth, (r"2021-04").toList] := by
  refine ⟨(civilFromDays now).y + 0 + ((civilFromDays now).m + -months - 1) / 12,
    ((civilFromDays now).m + -months - 1) % 12 + 1, ?_, ?_, ?_, ?_, by decide⟩
  · show [qryMonth, formatYearMonth (civilFromDays (goAddDate now 0 (-months)
      (-((civilFromDays now).d - 1))))] = _
    have hz : goAddDate now 0 (-months) (-((civilFromDays now).d - 1)) =
        daysFromCivil ((civilFromDays now).y + 0 + ((civilFromDays now).m + -months - 1) / 12)
          (((civilFromDays now).m + -months - 1) % 12 + 1) 1 := by
      show daysFromCivil _ _ 1 +
          ((civilFromDays now).d + -((civilFromDays now).d - 1) - 1) = _
      have : (civilFromDays now).d + -((civilFromDays now).d - 1) - 1 = 0 := by ring
      rw [this, add_zero]
    rw [hz]
    rfl
  · omega
  · omega
  · omega

/-- Anchoring facts for the calendar model: the conversions agree with known
dates (1970-01-01 is day 0 and a Thursday; the round trip holds on sample
dates, leap day included). -/
theorem calendar_model_anchors :
    daysFromCivil 1970 1 1 = 0
    ∧ goWeekday 0 = 4
    ∧ civilFromDays (daysFromCivil 2021 5 31) = ⟨2021, 5, 31⟩
    ∧ civilFromDays (daysFromCivil 2020 2 29) = ⟨2020, 2, 29⟩
    ∧ civilFromDays (daysFromCivil 1999 12 31) = ⟨1999, 12, 31⟩
    ∧ isoDate (daysFromCivil 2021 5 31) = (r"2021-05-31").toList := by
  refine ⟨by decide, by decide, by decide, by decide, by decide, by decide⟩

/-- Concrete weeksAgo behavior from the specification's testable properties:
for a Wednesday the range starts two days earlier (that week's Monday) and,
since the following Sunday is in the future, ends on now itself. -/
theorem weeksAgo_wednesday_example :
    goWeekday (daysFromCivil 2021 6 2) = 3
    ∧ weeksAgo (daysFromCivil 2021 6 2) 0 =
        [qryBetween, (r"2021-05-31").toList, (r"2021-06-02").toList] := by
  refine ⟨by decide, by decide⟩
